import Mathlib

/-!
Verification of the tariff synchronization pipeline (btlz-test).

The development shallow-embeds the pipeline's pure logic in Lean:

* `numericValueSchema` — the Zod union that normalizes numeric payload fields
  (`src/types/wildberries.ts`);
* `calculateSortingCoefficient` — the derived sort coefficient
  (`src/utils/tariff-formatter.ts`, `TariffTransformer`);
* `withRetry` — the Wildberries API client's retry loop
  (`src/services/wildberries-api.ts`);
* `executeWithRetry` / `shouldRetry` — the Google Sheets writer's retry loop;
* `processAndSaveData` / `updateTariffsForDate` — the reconciliation step
  (`src/services/tariff-service.ts`, `TariffsUpdater`);
* `syncAllSpreadsheets` — the multi-target publish coordinator;
* `executeScheduledTask` / `runNow` / `getNextRunTime` — the scheduler
  (`src/scheduler/tariffs-scheduler.ts`);
* both versions of `TariffFormatter.formatTariffsForSheet`.

JavaScript numbers are modelled as rationals (`ℚ`): every claim below concerns
null-propagation, ordering, counting or control flow, none of which depends on
IEEE-754 rounding of the small decimal inputs involved.  Exceptions are
modelled with `Except`, JS `undefined`/`null` with `Option`, and effectful
collaborators (HTTP, the database driver, the Sheets API) are abstracted as
explicit outcome parameters fed to the translated control flow.
-/

instance {ε α : Type} [DecidableEq ε] [DecidableEq α] : DecidableEq (Except ε α)
  | .error x, .error y => decidable_of_iff (x = y) (by simp)
  | .error _, .ok _ => isFalse (fun h => Except.noConfusion h)
  | .ok _, .error _ => isFalse (fun h => Except.noConfusion h)
  | .ok x, .ok y => decidable_of_iff (x = y) (by simp)

/-- A JSON value as seen by the Zod schema: a string, a number, `null`, or
anything else (an object/array/boolean, which fails every branch of the
numeric union). -/
inductive JsonValue where
  | str (s : String)
  | num (q : ℚ)
  | null
  | other
deriving DecidableEq, Repr

/-- Numeric value of a decimal digit character. -/
def digitVal (c : Char) : ℕ := c.toNat - 48

/-- Split a character list into its leading run of decimal digits and the rest. -/
def takeDigits (cs : List Char) : List Char × List Char :=
  (cs.takeWhile (·.isDigit), cs.dropWhile (·.isDigit))

/-- Value of a digit run read in base 10. -/
def natOfDigits (ds : List Char) : ℕ :=
  ds.foldl (fun a c => a * 10 + digitVal c) 0

/-- Model of JavaScript `parseFloat`: skip leading whitespace, read an optional
sign, a decimal mantissa (`digits`, `digits.digits` or `.digits`) and an
optional exponent, ignoring any trailing garbage; `none` models `NaN` (no
number could be read).  The `Infinity` literal, which `ℚ` cannot represent,
is not modelled; no input considered in this development produces it. -/
def parseFloatQ (s : String) : Option ℚ :=
  let cs₀ := s.data.dropWhile (·.isWhitespace)
  let signAndRest : Bool × List Char :=
    match cs₀ with
    | '-' :: rest => (true, rest)
    | '+' :: rest => (false, rest)
    | _ => (false, cs₀)
  let neg := signAndRest.1
  let intPart := takeDigits signAndRest.2
  let fracAndRest : List Char × List Char :=
    match intPart.2 with
    | '.' :: rest => takeDigits rest
    | _ => ([], intPart.2)
  if intPart.1 = [] ∧ fracAndRest.1 = [] then none
  else
    let mantNum : ℕ :=
      natOfDigits intPart.1 * 10 ^ fracAndRest.1.length + natOfDigits fracAndRest.1
    let signedMant : ℤ := if neg then -(mantNum : ℤ) else (mantNum : ℤ)
    let expPart : Bool × ℕ :=
      match fracAndRest.2 with
      | 'e' :: rest => parseExponent rest
      | 'E' :: rest => parseExponent rest
      | _ => (false, 0)
    let base : ℕ := 10 ^ fracAndRest.1.length
    if expPart.1 then
      some (mkRat signedMant (base * 10 ^ expPart.2))
    else
      some (mkRat (signedMant * ((10 ^ expPart.2 : ℕ) : ℤ)) base)
where
  /-- Exponent part after `e`/`E`: whether it is negative, and its digits; a
  missing digit run contributes exponent 0 (`parseFloat("1e")` is `1`). -/
  parseExponent (cs : List Char) : Bool × ℕ :=
    match cs with
    | '-' :: rest => (true, natOfDigits (takeDigits rest).1)
    | '+' :: rest => (false, natOfDigits (takeDigits rest).1)
    | _ => (false, natOfDigits (takeDigits cs).1)

/-- JavaScript `String.prototype.replace(',', '.')`: only the first comma is
replaced. -/
def replaceFirstComma (s : String) : String :=
  ⟨go s.data⟩
where
  go : List Char → List Char
    | [] => []
    | ',' :: rest => '.' :: rest
    | c :: rest => c :: go rest

/-- Translation of `numericValueSchema` (src/types/wildberries.ts): the Zod
union `[z.string().transform(...), z.number(), z.null()]`, tried in order.
A string never fails the branch: `"-"` and `""` become `null`, otherwise the
first comma is replaced by a dot and the result of `parseFloat` is taken,
with `NaN` becoming `null`.  (The source also compares the string against
`null` inside the transform; that comparison is unreachable and has no
translation.)  A number passes through, JSON `null` stays `null`, and any
other shape fails validation. -/
def numericValueSchema : JsonValue → Except String (Option ℚ)
  | .str v =>
    if v = "-" ∨ v = "" then .ok none
    else
      match parseFloatQ (replaceFirstComma v) with
      | none => .ok none
      | some q => .ok (some q)
  | .num q => .ok (some q)
  | .null => .ok none
  | .other => .error "Invalid input"

/-- Re-inject a normalized value into JSON, to state idempotence of
normalization. -/
def normalizedToJson : Option ℚ → JsonValue
  | some q => .num q
  | none => .null

/-- `Math.round(q * 100) / 100`, the two-decimal rounding used throughout the
formatter (`Math.round` rounds halves towards `+∞`, as does Mathlib's
`round`). -/
def round2 (q : ℚ) : ℚ := (round (q * 100) : ℤ) / 100

/-- Translation of `TariffTransformer.calculateSortingCoefficient`
(src/utils/tariff-formatter.ts): coalesce each of the three base rates with
`?? 0`, return `null` when all three coalesced values are `0`, otherwise the
weighted sum `(d*0.6 + m*0.4 + s*0.3) / 100` rounded to two decimals. -/
def calculateSortingCoefficient (db dmb sb : Option ℚ) : Option ℚ :=
  let deliveryBase := db.getD 0
  let deliveryMarketplaceBase := dmb.getD 0
  let storageBase := sb.getD 0
  if deliveryBase = 0 ∧ deliveryMarketplaceBase = 0 ∧ storageBase = 0 then
    none
  else
    some (round2 ((deliveryBase * (6/10) + deliveryMarketplaceBase * (4/10)
      + storageBase * (3/10)) / 100))

/-- C9: `numericValueSchema` maps `"-"`, `""` and `null` to `null`, maps
decimal-comma strings to the corresponding number (`"12,5"` and `12.5` both
normalize to `12.5`), leaves numeric inputs unchanged, maps unparseable
strings to `null` instead of failing, and is idempotent: renormalizing its
own output changes nothing. -/
theorem numericValueSchema_normalization :
    numericValueSchema (.str "-") = .ok none
    ∧ numericValueSchema (.str "") = .ok none
    ∧ numericValueSchema .null = .ok none
    ∧ numericValueSchema (.str "12,5") = .ok (some (25/2))
    ∧ numericValueSchema (.num (25/2)) = .ok (some (25/2))
    ∧ (∀ q : ℚ, numericValueSchema (.num q) = .ok (some q))
    ∧ (∀ s : String, ∃ r, numericValueSchema (.str s) = .ok r)
    ∧ (∀ s : String, s ≠ "-" → s ≠ "" →
        parseFloatQ (replaceFirstComma s) = none →
        numericValueSchema (.str s) = .ok none)
    ∧ (∀ v r, numericValueSchema v = .ok r →
        numericValueSchema (normalizedToJson r) = .ok r) := by
  have e125 : mkRat 25 2 = (25/2 : ℚ) := by rw [Rat.mkRat_eq_div]; norm_num
  have h125 : numericValueSchema (.str "12,5") = .ok (some (mkRat 25 2)) := by decide
  rw [e125] at h125
  refine ⟨rfl, rfl, rfl, h125, rfl, fun q => rfl, ?_, ?_, ?_⟩
  · intro s
    by_cases h : s = "-" ∨ s = ""
    · exact ⟨none, by simp [numericValueSchema, h]⟩
    · cases hp : parseFloatQ (replaceFirstComma s) with
      | none => exact ⟨none, by simp [numericValueSchema, h, hp]⟩
      | some q => exact ⟨some q, by simp [numericValueSchema, h, hp]⟩
  · intro s h1 h2 hp
    simp [numericValueSchema, h1, h2, hp]
  · intro v r h
    cases r with
    | none => rfl
    | some q => rfl

/-- Witness for the conditional parts of `numericValueSchema_normalization`:
the string `"abc"` fails to parse and normalizes to `null`, and renormalizing
the output of normalizing `7` is a fixed point. -/
theorem numericValueSchema_normalization_witness :
    numericValueSchema (.str "abc") = .ok none
    ∧ numericValueSchema (normalizedToJson (some 7)) = .ok (some 7) := by
  refine ⟨?_, ?_⟩
  · exact numericValueSchema_normalization.2.2.2.2.2.2.2.1 "abc"
      (by decide) (by decide) (by decide)
  · exact numericValueSchema_normalization.2.2.2.2.2.2.2.2 (.num 7) (some 7) rfl

/-- C4 counterexample: a record whose only non-null base rate is `0` gets a
`null` coefficient, although not all three base fields are absent — the
source tests the coalesced values against zero, not the fields against
`null`. -/
theorem calculateSortingCoefficient_zero_counterexample :
    calculateSortingCoefficient (some 0) none none = none
    ∧ (some (0 : ℚ)) ≠ none := by
  exact ⟨rfl, by simp⟩

/-- C4 as amended: missing bases are treated as zero (coalescing the fields
first changes nothing), and the result is `null` exactly when all three
coalesced bases are zero — so a record with exactly one non-null base rate
receives a non-null coefficient precisely when that base is nonzero. -/
theorem calculateSortingCoefficient_null_iff (db dmb sb : Option ℚ) :
    calculateSortingCoefficient db dmb sb
      = calculateSortingCoefficient (some (db.getD 0)) (some (dmb.getD 0)) (some (sb.getD 0))
    ∧ (calculateSortingCoefficient db dmb sb = none
        ↔ db.getD 0 = 0 ∧ dmb.getD 0 = 0 ∧ sb.getD 0 = 0) := by
  constructor
  · simp [calculateSortingCoefficient]
  · constructor
    · intro h
      by_cases hall : db.getD 0 = 0 ∧ dmb.getD 0 = 0 ∧ sb.getD 0 = 0
      · exact hall
      · exfalso
        simp only [calculateSortingCoefficient, if_neg hall] at h
        exact Option.noConfusion h
    · intro ⟨h1, h2, h3⟩
      simp [calculateSortingCoefficient, h1, h2, h3]

/-- Error classes thrown by the Wildberries API client
(src/services/wildberries-api.ts): date-validation (HTTP 400), auth
(HTTP 401), rate-limit (HTTP 429) and the generic `WildberriesApiError`. -/
inductive WbError where
  | validation (msg : String)
  | auth (msg : String)
  | rateLimit (msg : String)
  | api (msg : String)
deriving DecidableEq, Repr

/-- The non-retryable classes of `WildberriesApiClient.withRetry`:
`WildberriesAuthError` and `WildberriesDateValidationError`. -/
def WbError.noRetry : WbError → Bool
  | .auth _ => true
  | .validation _ => true
  | .rateLimit _ => false
  | .api _ => false

/-- `WildberriesApiClient.MAX_RETRIES`. -/
def MAX_RETRIES : ℕ := 3

/-- Trace of one run of a retry loop: its final outcome, the attempt numbers
at which the wrapped operation was invoked, and the backoff delays slept
between attempts (milliseconds). -/
structure RetryTrace (α : Type) where
  result : Except WbError α
  attemptsTried : List ℕ
  delays : List ℕ
deriving Repr

/-- Translation of `WildberriesApiClient.withRetry` at a given attempt
number.  The operation is abstracted as a map from the attempt number to that
attempt's outcome.  The source recurses on `attempt + 1`; the recursion is
bounded by the `attempt >= MAX_RETRIES` guard, which the `fuel` argument
mirrors (with fuel at least `MAX_RETRIES - attempt` the zero-fuel branch is
unreachable). -/
def withRetryFrom (op : ℕ → Except WbError α) : ℕ → ℕ → RetryTrace α
  | attempt, fuel =>
    match op attempt with
    | .ok a => ⟨.ok a, [attempt], []⟩
    | .error e =>
      if e.noRetry = true ∨ MAX_RETRIES ≤ attempt then ⟨.error e, [attempt], []⟩
      else
        match fuel with
        | 0 => ⟨.error e, [attempt], []⟩
        | fuel + 1 =>
          let delay := 2 ^ (attempt - 1) * 1000
          let rest := withRetryFrom op (attempt + 1) fuel
          ⟨rest.result, attempt :: rest.attemptsTried, delay :: rest.delays⟩

/-- `withRetry(operation)` with the source's default `attempt = 1`. -/
def withRetry (op : ℕ → Except WbError α) : RetryTrace α :=
  withRetryFrom op 1 MAX_RETRIES

/-- C7: when every attempt of the underlying request fails with a transient
(retry-eligible) error, `WildberriesApiClient.withRetry` performs exactly 3
attempts — the initial attempt plus 2 retries — sleeping 1000 ms and then
2000 ms between them, and surfaces the final attempt's error. -/
theorem withRetry_transient_exactly_three {α : Type}
    (err : ℕ → WbError) (h : ∀ n, (err n).noRetry = false) :
    withRetry (fun n => (.error (err n) : Except WbError α))
      = ⟨.error (err 3), [1, 2, 3], [1000, 2000]⟩ := by
  simp only [withRetry, MAX_RETRIES, withRetryFrom, h]
  norm_num

/-- Witness for `withRetry_transient_exactly_three`: a stub that always
reports HTTP 429. -/
theorem withRetry_transient_exactly_three_witness :
    withRetry (fun _ => (.error (.rateLimit "429") : Except WbError Unit))
      = ⟨.error (.rateLimit "429"), [1, 2, 3], [1000, 2000]⟩ :=
  withRetry_transient_exactly_three (fun _ => .rateLimit "429") (fun _ => rfl)

/-- `RetryOptions` of the Google Sheets writer. -/
structure RetryOptions where
  maxRetries : ℕ
  baseDelay : ℕ
  maxDelay : ℕ
  backoffFactor : ℕ
deriving DecidableEq, Repr

/-- `SheetsWriter.defaultRetryOptions`: 3 retries, 1 s base delay, 30 s cap,
factor 2. -/
def defaultRetryOptions : RetryOptions :=
  { maxRetries := 3, baseDelay := 1000, maxDelay := 30000, backoffFactor := 2 }

/-- Whether the first list is a prefix of the second (Boolean, structural). -/
def startsWithPattern : List Char → List Char → Bool
  | [], _ => true
  | _ :: _, [] => false
  | p :: ps, c :: cs => p = c && startsWithPattern ps cs

/-- Whether `pat` occurs as a contiguous run in the list. -/
def containsSubstrList (pat : List Char) : List Char → Bool
  | [] => pat.isEmpty
  | c :: cs => startsWithPattern pat (c :: cs) || containsSubstrList pat cs

/-- Substring test, modelling JavaScript `String.prototype.includes`. -/
def containsSubstr (s pat : String) : Bool :=
  containsSubstrList pat.data s.data

/-- ASCII lower-casing, modelling `String.prototype.toLowerCase` on the
ASCII error messages compared by the writer. -/
def toLowerStr (s : String) : String :=
  ⟨s.data.map Char.toLower⟩

/-- Translation of `SheetsWriter.shouldRetry`: lower-case the message and
look for the transient markers — timeout/network, 429/500/502/503,
quota/rate limit. -/
def shouldRetry (msg : String) : Bool :=
  let m := toLowerStr msg
  containsSubstr m "timeout" || containsSubstr m "network"
    || containsSubstr m "429" || containsSubstr m "500"
    || containsSubstr m "502" || containsSubstr m "503"
    || containsSubstr m "quota" || containsSubstr m "rate limit"

/-- Trace of one run of `SheetsWriter.executeWithRetry`: outcome, number of
invocations of the wrapped operation, and the delays slept (ms). -/
structure SheetsRetryTrace (α : Type) where
  result : Except String α
  attempts : ℕ
  delays : List ℕ
deriving Repr

/-- Translation of the body of `SheetsWriter.executeWithRetry`'s
`for (let attempt = 0; attempt <= maxRetries; attempt++)` loop, from
iteration `attempt` on.  Before every iteration but the first the loop
sleeps `min(baseDelay * backoffFactor^(attempt-1), maxDelay)`.  On an error
the loop stops (and rethrows the last error) when `attempt === maxRetries`
or when `shouldRetry` rejects the message.  `fuel` counts the loop
iterations still allowed after this one; entered with
`fuel = maxRetries - attempt` it reaches zero exactly at the final
iteration `attempt = maxRetries`, where the loop exits on an error anyway,
so the zero-fuel equation (which cannot iterate again) agrees with the
loop. -/
def executeWithRetryFrom (options : RetryOptions) (op : ℕ → Except String α) :
    ℕ → ℕ → SheetsRetryTrace α
  | attempt, 0 =>
    let slept : List ℕ :=
      if 0 < attempt then
        [min (options.baseDelay * options.backoffFactor ^ (attempt - 1)) options.maxDelay]
      else []
    match op attempt with
    | .ok a => ⟨.ok a, 1, slept⟩
    | .error e => ⟨.error e, 1, slept⟩
  | attempt, fuel + 1 =>
    let slept : List ℕ :=
      if 0 < attempt then
        [min (options.baseDelay * options.backoffFactor ^ (attempt - 1)) options.maxDelay]
      else []
    match op attempt with
    | .ok a => ⟨.ok a, 1, slept⟩
    | .error e =>
      if attempt = options.maxRetries then ⟨.error e, 1, slept⟩
      else if shouldRetry e = false then ⟨.error e, 1, slept⟩
      else
        let rest := executeWithRetryFrom options op (attempt + 1) fuel
        ⟨rest.result, rest.attempts + 1, slept ++ rest.delays⟩

/-- `SheetsWriter.executeWithRetry`, entered at `attempt = 0`. -/
def executeWithRetry (options : RetryOptions) (op : ℕ → Except String α) :
    SheetsRetryTrace α :=
  executeWithRetryFrom options op 0 options.maxRetries

/-- C5 counterexample: an operation that always fails with a retryable
message (`"timeout"`) is attempted 4 times under the default options — the
initial call plus 3 retries — not at most 3 as claimed; the backoff delays
are 1 s, 2 s, 4 s. -/
theorem executeWithRetry_four_attempts :
    (executeWithRetry defaultRetryOptions
        (fun _ => (.error "timeout" : Except String Unit))).attempts = 4
    ∧ ¬ (executeWithRetry defaultRetryOptions
        (fun _ => (.error "timeout" : Except String Unit))).attempts ≤ 3
    ∧ (executeWithRetry defaultRetryOptions
        (fun _ => (.error "timeout" : Except String Unit))).delays
        = [1000, 2000, 4000] := by
  refine ⟨by decide, by decide, by decide⟩

/-- The attempt count of the writer's retry loop is bounded by the fuel plus
one (so by `maxRetries + 1` from the loop entry). -/
theorem executeWithRetryFrom_attempts_le {α : Type} (options : RetryOptions)
    (op : ℕ → Except String α) :
    ∀ fuel attempt, (executeWithRetryFrom options op attempt fuel).attempts ≤ fuel + 1 := by
  intro fuel
  induction fuel with
  | zero =>
    intro attempt
    simp only [executeWithRetryFrom]
    cases op attempt <;> simp
  | succ n ih =>
    intro attempt
    simp only [executeWithRetryFrom]
    cases op attempt with
    | ok a => simp
    | error e =>
      by_cases h1 : attempt = options.maxRetries
      · simp [h1]
      · by_cases h2 : shouldRetry e = false
        · simp [h1, h2]
        · have := ih (attempt + 1)
          simp only [if_neg h1, if_neg h2]
          omega

/-- C5 as amended: with the writer's default options, every wrapped
operation is attempted at most 4 times (the initial call plus 3 retries, not
3 attempts as the upstream client performs); an operation whose every
attempt fails with a retry-eligible message is attempted exactly 4 times
with backoff delays of 1 s, 2 s and 4 s (each capped at 30 s) before the
last error surfaces; and a first failure whose message is not retry-eligible
surfaces at once after a single attempt with no delay. -/
theorem executeWithRetry_amended_policy {α : Type} (op : ℕ → Except String α) :
    (executeWithRetry defaultRetryOptions op).attempts ≤ 4
    ∧ ((∀ n, ∃ m, op n = .error m ∧ shouldRetry m = true) →
        (executeWithRetry defaultRetryOptions op).attempts = 4
        ∧ (executeWithRetry defaultRetryOptions op).delays = [1000, 2000, 4000]
        ∧ ∃ m, op 3 = .error m
            ∧ (executeWithRetry defaultRetryOptions op).result = .error m)
    ∧ (∀ m, op 0 = .error m → shouldRetry m = false →
        (executeWithRetry defaultRetryOptions op).attempts = 1
        ∧ (executeWithRetry defaultRetryOptions op).delays = []
        ∧ (executeWithRetry defaultRetryOptions op).result = .error m) := by
  refine ⟨?_, ?_, ?_⟩
  · exact executeWithRetryFrom_attempts_le defaultRetryOptions op 3 0
  · intro h
    obtain ⟨m0, h0, r0⟩ := h 0
    obtain ⟨m1, h1, r1⟩ := h 1
    obtain ⟨m2, h2, r2⟩ := h 2
    obtain ⟨m3, h3, r3⟩ := h 3
    refine ⟨?_, ?_, m3, h3, ?_⟩ <;>
      simp [executeWithRetry, executeWithRetryFrom, defaultRetryOptions,
        h0, h1, h2, h3, r0, r1, r2, r3]
  · intro m h0 hnr
    refine ⟨?_, ?_, ?_⟩ <;>
      simp [executeWithRetry, executeWithRetryFrom, defaultRetryOptions, h0, hnr]

/-- Witness for `executeWithRetry_amended_policy`: a writer stub that always
reports quota exhaustion is retried to 4 attempts with delays 1 s/2 s/4 s,
and a stub that fails once with a permission error is not retried. -/
theorem executeWithRetry_amended_policy_witness :
    ((executeWithRetry defaultRetryOptions
        (fun _ => (.error "Quota exceeded" : Except String Unit))).attempts = 4
      ∧ (executeWithRetry defaultRetryOptions
        (fun _ => (.error "Quota exceeded" : Except String Unit))).delays
          = [1000, 2000, 4000]
      ∧ ∃ m, (fun _ => (.error "Quota exceeded" : Except String Unit)) 3 = .error m
          ∧ (executeWithRetry defaultRetryOptions
              (fun _ => (.error "Quota exceeded" : Except String Unit))).result = .error m)
    ∧ ((executeWithRetry defaultRetryOptions
        (fun _ => (.error "Forbidden" : Except String Unit))).attempts = 1
      ∧ (executeWithRetry defaultRetryOptions
        (fun _ => (.error "Forbidden" : Except String Unit))).delays = []
      ∧ (executeWithRetry defaultRetryOptions
        (fun _ => (.error "Forbidden" : Except String Unit))).result = .error "Forbidden") := by
  constructor
  · exact (executeWithRetry_amended_policy
      (fun _ => (.error "Quota exceeded" : Except String Unit))).2.1
      (fun _ => ⟨"Quota exceeded", rfl, by decide⟩)
  · exact (executeWithRetry_amended_policy
      (fun _ => (.error "Forbidden" : Except String Unit))).2.2
      "Forbidden" rfl (by decide)

/-- One entry of the fetched `warehouseList`, abstracted to the data the
reconciliation loop reads plus the outcome of its two database upserts
(warehouse, then tariff), which the loop's `try`/`catch` observes.  The
database driver itself is out of scope; its behaviour on each entry is an
explicit parameter. -/
inductive EntryOutcome where
  | ok
  | warehouseFail (msg : String)
  | tariffFail (msg : String)
deriving DecidableEq, Repr

/-- An entry paired with its name (used in the error message) and outcome. -/
structure WarehouseEntry where
  warehouseName : String
  outcome : EntryOutcome
deriving DecidableEq, Repr

/-- Running counters of `TariffsUpdater.processAndSaveData`'s loop. -/
structure ProcessState where
  warehousesProcessed : ℕ
  tariffsProcessed : ℕ
  errors : List String
deriving DecidableEq, Repr

/-- Result of `processAndSaveData`: the counters, whether the transaction
was committed (`true`) or rolled back (`false`), and how many upserted
tariff records the database retains after the transaction ends. -/
structure ProcessResult where
  warehousesProcessed : ℕ
  tariffsProcessed : ℕ
  errors : List String
  committed : Bool
  tariffsPersisted : ℕ
deriving DecidableEq, Repr

/-- One iteration of the `for (const warehouseData of warehouseList)` loop of
`processAndSaveData` (src/services/tariff-service.ts, `TariffsUpdater`): the
warehouse upsert, then the tariff upsert, with the whole body in a
`try`/`catch` that appends one error message and continues. -/
def processEntry (st : ProcessState) (e : WarehouseEntry) : ProcessState :=
  match e.outcome with
  | .ok =>
    { st with warehousesProcessed := st.warehousesProcessed + 1,
              tariffsProcessed := st.tariffsProcessed + 1 }
  | .warehouseFail m =>
    { st with errors := st.errors
        ++ ["Ошибка обработки склада " ++ e.warehouseName ++ ": " ++ m] }
  | .tariffFail m =>
    { st with warehousesProcessed := st.warehousesProcessed + 1,
              errors := st.errors
        ++ ["Ошибка обработки склада " ++ e.warehouseName ++ ": " ++ m] }

/-- Translation of `TariffsUpdater.processAndSaveData`: run the loop over
the batch inside one transaction, then commit when `errors.length === 0 ||
tariffsProcessed > 0` and roll back otherwise.  A commit retains every
record upserted by the successful iterations; a rollback retains none. -/
def processAndSaveData (warehouseList : List WarehouseEntry) : ProcessResult :=
  let st := warehouseList.foldl processEntry ⟨0, 0, []⟩
  let committed := st.errors.isEmpty || decide (0 < st.tariffsProcessed)
  { warehousesProcessed := st.warehousesProcessed,
    tariffsProcessed := st.tariffsProcessed,
    errors := st.errors,
    committed := committed,
    tariffsPersisted := if committed then st.tariffsProcessed else 0 }

/-- Entries whose two upserts both succeed. -/
def countOk (l : List WarehouseEntry) : ℕ :=
  l.countP (fun e => e.outcome = .ok)

/-- Entries that raise inside the loop body. -/
def countFail (l : List WarehouseEntry) : ℕ :=
  l.countP (fun e => e.outcome ≠ .ok)

/-- Folding the loop body accumulates onto any starting state: one error
message per failed entry and one processed tariff per successful entry. -/
theorem processEntry_foldl (l : List WarehouseEntry) :
    ∀ st : ProcessState,
      (l.foldl processEntry st).errors.length = st.errors.length + countFail l
      ∧ (l.foldl processEntry st).tariffsProcessed
          = st.tariffsProcessed + countOk l := by
  induction l with
  | nil => intro st; simp [countFail, countOk]
  | cons e rest ih =>
    intro st
    have hrest := ih (processEntry st e)
    cases ho : e.outcome with
    | ok =>
      refine ⟨?_, ?_⟩ <;>
        simp_all [processEntry, ho, countFail, countOk, List.countP_cons] <;> omega
    | warehouseFail m =>
      refine ⟨?_, ?_⟩ <;>
        simp_all [processEntry, ho, countFail, countOk, List.countP_cons] <;> omega
    | tariffFail m =>
      refine ⟨?_, ?_⟩ <;>
        simp_all [processEntry, ho, countFail, countOk, List.countP_cons] <;> omega

/-- Every entry either succeeds or fails: the two counts partition the
batch. -/
theorem countOk_add_countFail (l : List WarehouseEntry) :
    countOk l + countFail l = l.length := by
  induction l with
  | nil => rfl
  | cons e rest ih =>
    by_cases h : e.outcome = .ok <;>
      simp only [countOk, countFail, List.countP_cons, h, List.length_cons,
        ne_eq, decide_not] at ih ⊢ <;>
      simp [h] <;> omega

/-- C3: for a fetched batch in which exactly the entries counted by
`countFail` raise during upsert, `processAndSaveData` reports exactly that
many errors while processing the whole batch (every other entry's tariff is
processed), commits precisely when no entry failed or at least one entry
succeeded — hence it rolls back only when every entry of a non-empty batch
failed — and a commit persists exactly the successfully upserted records. -/
theorem processAndSaveData_error_isolation (warehouseList : List WarehouseEntry) :
    (processAndSaveData warehouseList).errors.length = countFail warehouseList
    ∧ (processAndSaveData warehouseList).tariffsProcessed = countOk warehouseList
    ∧ ((processAndSaveData warehouseList).committed = true
        ↔ countFail warehouseList = 0 ∨ 0 < countOk warehouseList)
    ∧ (processAndSaveData warehouseList).tariffsPersisted
        = (if (processAndSaveData warehouseList).committed then countOk warehouseList else 0)
    ∧ countOk warehouseList + countFail warehouseList = warehouseList.length := by
  have hf := processEntry_foldl warehouseList ⟨0, 0, []⟩
  have herr : (processAndSaveData warehouseList).errors
      = (warehouseList.foldl processEntry ⟨0, 0, []⟩).errors := rfl
  have htar : (processAndSaveData warehouseList).tariffsProcessed
      = (warehouseList.foldl processEntry ⟨0, 0, []⟩).tariffsProcessed := rfl
  have hlen : (processAndSaveData warehouseList).errors.length = countFail warehouseList := by
    rw [herr]
    simpa using hf.1
  have htp : (processAndSaveData warehouseList).tariffsProcessed = countOk warehouseList := by
    rw [htar]
    simpa using hf.2
  have hcom : (processAndSaveData warehouseList).committed = true
      ↔ countFail warehouseList = 0 ∨ 0 < countOk warehouseList := by
    have : (processAndSaveData warehouseList).committed
        = ((warehouseList.foldl processEntry ⟨0, 0, []⟩).errors.isEmpty
            || decide (0 < (warehouseList.foldl processEntry ⟨0, 0, []⟩).tariffsProcessed)) := rfl
    rw [this, Bool.or_eq_true, List.isEmpty_iff, decide_eq_true_eq]
    constructor
    · rintro (h | h)
      · left
        have : (warehouseList.foldl processEntry ⟨0, 0, []⟩).errors.length = 0 := by
          rw [h]; rfl
        rw [← herr] at this
        rw [hlen] at this
        exact this
      · right
        rw [← htar] at h
        rw [htp] at h
        exact h
    · rintro (h | h)
      · left
        have h0 : (warehouseList.foldl processEntry ⟨0, 0, []⟩).errors.length = 0 := by
          rw [← herr, hlen, h]
        exact List.length_eq_zero.mp h0
      · right
        rw [← htp, htar] at h
        exact h
  refine ⟨hlen, htp, hcom, ?_, ?_⟩
  · have : (processAndSaveData warehouseList).tariffsPersisted
        = (if (processAndSaveData warehouseList).committed
            then (processAndSaveData warehouseList).tariffsProcessed else 0) := rfl
    rw [this, htp]
  · exact countOk_add_countFail warehouseList

/-- `TariffUpdateResult` (src/services/tariff-service.ts, `TariffsUpdater`),
without the wall-clock `duration` field, which the embedding does not keep
time for. -/
structure TariffUpdateResult where
  success : Bool
  date : String
  warehousesProcessed : ℕ
  tariffsProcessed : ℕ
  errors : List String
deriving DecidableEq, Repr

/-- Translation of `TariffsUpdater.updateTariffsForDate`.  The API fetch is
abstracted as an `Except`: an `.error` models `fetchTariffsFromApi`
rethrowing (validation, auth, transient after retries); an `.ok` carries the
validated `warehouseList` with per-entry upsert outcomes.  `txError` models
an exception escaping `processAndSaveData` itself (a failing
commit/rollback), which its outer `catch` rethrows.  Both throwing paths
land in the method's own `catch`, which returns a result with
`success = false`, the message appended to the errors accumulated so far,
and the counters as they stood (still `0`, since the source assigns them
only after `processAndSaveData` returns).  The function is total: no
exception escapes to the caller. -/
def updateTariffsForDate (date : String)
    (fetch : Except String (List WarehouseEntry))
    (txError : Option String) : TariffUpdateResult :=
  match fetch with
  | .error m =>
    { success := false, date := date, warehousesProcessed := 0,
      tariffsProcessed := 0, errors := [m] }
  | .ok warehouseList =>
    match txError with
    | some m =>
      { success := false, date := date, warehousesProcessed := 0,
        tariffsProcessed := 0, errors := [m] }
    | none =>
      let p := processAndSaveData warehouseList
      { success := p.errors.isEmpty, date := date,
        warehousesProcessed := p.warehousesProcessed,
        tariffsProcessed := p.tariffsProcessed,
        errors := p.errors }

/-- C10: `updateTariffsForDate` always returns a `TariffUpdateResult` —
exceptions escaping the fetch or the transaction are converted into a
returned result with `success = false` and the error message appended,
with the counters accumulated so far (zero on those paths) preserved; on
the non-throwing path `success` is true exactly when no per-entry error was
recorded. -/
theorem updateTariffsForDate_never_throws
    (date m : String) (txError : Option String) (l : List WarehouseEntry) :
    updateTariffsForDate date (.error m) txError
      = { success := false, date := date, warehousesProcessed := 0,
          tariffsProcessed := 0, errors := [m] }
    ∧ updateTariffsForDate date (.ok l) (some m)
      = { success := false, date := date, warehousesProcessed := 0,
          tariffsProcessed := 0, errors := [m] }
    ∧ (updateTariffsForDate date (.ok l) none).errors = (processAndSaveData l).errors
    ∧ ((updateTariffsForDate date (.ok l) none).success = true
        ↔ (updateTariffsForDate date (.ok l) none).errors = []) := by
  refine ⟨rfl, rfl, rfl, ?_⟩
  show (processAndSaveData l).errors.isEmpty = true ↔ (processAndSaveData l).errors = []
  exact List.isEmpty_iff

/-- Scheduler state (src/scheduler/tariffs-scheduler.ts): whether a cron
task is registered and the `isRunning` flag. -/
structure SchedulerState where
  hasTask : Bool
  isRunning : Bool
deriving DecidableEq, Repr

/-- What one wrapped cycle logged: whether its outcome was logged, whether
the catch branch ran, and whether the elevated 401 advisory was emitted. -/
structure ExecLog where
  resultLogged : Bool
  errorCaught : Bool
  authAlert : Bool
deriving DecidableEq, Repr

/-- Milliseconds per hour. -/
def hourMs : ℕ := 3600000

/-- Translation of `TariffsScheduler.getNextRunTime`: `null` unless running,
otherwise the current time with the hour incremented and
minutes/seconds/milliseconds zeroed — i.e. the next top of the hour.  Time
is epoch milliseconds; zeroing the sub-hour fields is truncation to the
hour, which is offset-independent for the whole-hour timezones involved
(the server clock and Europe/Moscow, UTC+3). -/
def getNextRunTime (isRunning : Bool) (now : ℕ) : Option ℕ :=
  if isRunning then some ((now / hourMs + 1) * hourMs) else none

/-- Translation of `TariffsScheduler.executeScheduledTask`.  The updater's
behaviour is abstracted as an `Except`: `.ok` a returned
`TariffUpdateResult` (the real updater never throws), `.error` a thrown
exception (possible with an injected stub).  The entire body is wrapped in
`try`/`catch`: on a result, it is logged as success or as a warning with its
errors; on an exception it is logged, a `401` in the message triggers the
elevated advisory, and the method returns normally — hence the result type
is `.ok` on every branch and the scheduler state is untouched. -/
def executeScheduledTask (updater : Except String TariffUpdateResult)
    (st : SchedulerState) : Except String (SchedulerState × ExecLog) :=
  match updater with
  | .ok _ => .ok (st, ⟨true, false, false⟩)
  | .error e => .ok (st, ⟨true, true, containsSubstr e "401"⟩)

/-- Translation of `TariffsScheduler.runNow`: await `executeScheduledTask`,
log, and rethrow an escaping exception to the caller. -/
def runNow (updater : Except String TariffUpdateResult)
    (st : SchedulerState) : Except String (SchedulerState × ExecLog) :=
  match executeScheduledTask updater st with
  | .ok r => .ok r
  | .error e => .error e

/-- C1 (the code against the claim): even when the underlying cycle throws —
here a stub updater failing with an auth error — `runNow` resolves
successfully instead of rejecting: `executeScheduledTask` catches every
exception before `runNow`'s own rethrowing catch can observe it, so the
failure is not propagated to the caller. -/
theorem runNow_swallows_cycle_failure :
    runNow (.error "Request failed with status code 401")
        ⟨true, true⟩
      = .ok (⟨true, true⟩, ⟨true, true, true⟩)
    ∧ (∀ e st, ∃ r, runNow (.error e) st = .ok r) := by
  refine ⟨by decide, fun e st => ⟨_, rfl⟩⟩

/-- C6: a scheduled cycle whose updater throws is caught and classified (the
elevated advisory fires exactly when the message mentions 401), no exception
escapes the wrapper, the scheduler state — including `isRunning` — is left
untouched, and `getNextRunTime` of a running scheduler is a time strictly in
the future, whatever the last run's outcome. -/
theorem executeScheduledTask_resilient
    (updater : Except String TariffUpdateResult) (st : SchedulerState) (now : ℕ)
    (h : st.isRunning = true) :
    (∃ log, executeScheduledTask updater st = .ok (st, log)
      ∧ (∀ e, updater = .error e →
          log.errorCaught = true ∧ log.authAlert = containsSubstr e "401"))
    ∧ ∃ t, getNextRunTime st.isRunning now = some t ∧ now < t := by
  constructor
  · cases updater with
    | ok r => exact ⟨⟨true, false, false⟩, rfl, fun e he => by cases he⟩
    | error e =>
      exact ⟨⟨true, true, containsSubstr e "401"⟩, rfl,
        fun e' he' => by cases he'; exact ⟨rfl, rfl⟩⟩
  · refine ⟨(now / hourMs + 1) * hourMs, by simp [getNextRunTime, h], ?_⟩
    show now < (now / hourMs + 1) * hourMs
    simp only [hourMs]
    omega

/-- Witness for `executeScheduledTask_resilient`: a running scheduler whose
stub updater always throws an auth error, observed at epoch time 1. -/
theorem executeScheduledTask_resilient_witness :
    (⟨true, true⟩ : SchedulerState).isRunning = true
    ∧ ((∃ log, executeScheduledTask (.error "401") ⟨true, true⟩
          = .ok (⟨true, true⟩, log)
        ∧ (∀ e, (.error "401" : Except String TariffUpdateResult) = .error e →
            log.errorCaught = true ∧ log.authAlert = containsSubstr e "401"))
      ∧ ∃ t, getNextRunTime (⟨true, true⟩ : SchedulerState).isRunning 1 = some t ∧ 1 < t) :=
  ⟨rfl, executeScheduledTask_resilient (.error "401") ⟨true, true⟩ 1 rfl⟩

/-- Which writer call of one target's sync fails first, if any.  The three
calls `syncSingleSpreadsheet` makes are `clear`, then `batchUpdate` for the
header row, then `append` for the data rows; each writer call already
contains its own retry loop, so one symbol here stands for "fails on every
attempt". -/
inductive WriterBehavior where
  | allOk
  | clearFails (msg : String)
  | headerFails (msg : String)
  | appendFails (msg : String)
deriving DecidableEq, Repr

/-- One active spreadsheet target (a `spreadsheets` row) together with the
abstracted behaviour of the external collaborators while it is synced:
which writer call fails first, the row count a successful `append` reports,
and whether `updateLastSynced` throws. -/
structure TargetSpec where
  spreadsheetId : String
  sheetName : String
  behavior : WriterBehavior
  rowsWritten : ℕ
  updateSyncedError : Option String
deriving DecidableEq, Repr

/-- `SpreadsheetSyncResult` of one target, extended with which writer calls
were actually performed (observables of the translated control flow: `clear`
always runs; the header write runs only after a successful clear; `append`
runs only after a successful header write and only when there are data
rows). -/
structure SpreadsheetSyncResult where
  spreadsheet_id : String
  sheet_name : String
  success : Bool
  rows_written : ℕ
  error : Option String
  performedClear : Bool
  performedHeaderWrite : Bool
  performedAppend : Bool
deriving DecidableEq, Repr

/-- Translation of `SheetsSyncService.syncSingleSpreadsheet`
(src, `SheetsSyncService`): clear the sheet, write the header row, append
the data rows if any; the first failing step throws into the method's own
`catch`, which converts it into a `success = false` result carrying the
step's message — the method itself never throws. -/
def syncSingleSpreadsheet (dataNonempty : Bool) (t : TargetSpec) :
    SpreadsheetSyncResult :=
  match t.behavior with
  | .clearFails m =>
    ⟨t.spreadsheetId, t.sheetName, false, 0,
      some ("Ошибка очистки листа: " ++ m), true, false, false⟩
  | .headerFails m =>
    ⟨t.spreadsheetId, t.sheetName, false, 0,
      some ("Ошибка записи заголовков: " ++ m), true, true, false⟩
  | .appendFails m =>
    if dataNonempty then
      ⟨t.spreadsheetId, t.sheetName, false, 0,
        some ("Ошибка записи данных: " ++ m), true, true, true⟩
    else
      ⟨t.spreadsheetId, t.sheetName, true, 0, none, true, true, false⟩
  | .allOk =>
    ⟨t.spreadsheetId, t.sheetName, true,
      if dataNonempty then t.rowsWritten else 0, none, true, true, dataNonempty⟩

/-- Accumulators of the `for (const spreadsheet of activeSpreadsheets)`
loop of `syncAllSpreadsheets`. -/
structure SyncLoopState where
  successfulSyncs : ℕ
  failedSyncs : ℕ
  totalRowsWritten : ℕ
  errors : List String
  spreadsheetResults : List SpreadsheetSyncResult
deriving DecidableEq, Repr

/-- One iteration of that loop: record the per-target result; on success
bump the counters and persist the last-sync timestamp (whose own exception
is caught by the iteration's `catch`, counting the target as failed as
well); on failure record the error and continue with the next target. -/
def syncLoopStep (dataNonempty : Bool) (st : SyncLoopState) (t : TargetSpec) :
    SyncLoopState :=
  let result := syncSingleSpreadsheet dataNonempty t
  if result.success then
    match t.updateSyncedError with
    | none =>
      { st with
        spreadsheetResults := st.spreadsheetResults ++ [result],
        successfulSyncs := st.successfulSyncs + 1,
        totalRowsWritten := st.totalRowsWritten + result.rows_written }
    | some m =>
      { st with
        spreadsheetResults := st.spreadsheetResults ++ [result],
        successfulSyncs := st.successfulSyncs + 1,
        totalRowsWritten := st.totalRowsWritten + result.rows_written,
        failedSyncs := st.failedSyncs + 1,
        errors := st.errors ++ ["Критическая ошибка при синхронизации таблицы "
          ++ t.spreadsheetId ++ ":" ++ t.sheetName ++ " - " ++ m] }
  else
    { st with
      spreadsheetResults := st.spreadsheetResults ++ [result],
      failedSyncs := st.failedSyncs + 1,
      errors := st.errors ++ ["Ошибка синхронизации таблицы "
        ++ t.spreadsheetId ++ ":" ++ t.sheetName ++ " - "
        ++ (result.error.getD "undefined")] }

/-- `SheetsSyncResult` of `SheetsSyncService.syncAllSpreadsheets`, without
the wall-clock duration. -/
structure SheetsSyncResult where
  success : Bool
  totalSpreadsheets : ℕ
  successfulSyncs : ℕ
  failedSyncs : ℕ
  totalRowsWritten : ℕ
  errors : List String
  spreadsheetResults : List SpreadsheetSyncResult
deriving DecidableEq, Repr

/-- Translation of `SheetsSyncService.syncAllSpreadsheets`: short-circuit
successfully with no work when there are no active targets or no tariffs
for the date (the formatted data matrix has one row per tariff, so it is
nonempty exactly when `0 < tariffCount`); otherwise run the per-target loop
and report `success` exactly when no target failed. -/
def syncAllSpreadsheets (targets : List TargetSpec) (tariffCount : ℕ) :
    SheetsSyncResult :=
  if targets.length = 0 then
    ⟨true, 0, 0, 0, 0, [], []⟩
  else if tariffCount = 0 then
    ⟨true, targets.length, 0, 0, 0, ["Нет тарифов для синхронизации"], []⟩
  else
    let final := targets.foldl (syncLoopStep (decide (0 < tariffCount)))
      ⟨0, 0, 0, [], []⟩
    ⟨decide (final.failedSyncs = 0), targets.length, final.successfulSyncs,
      final.failedSyncs, final.totalRowsWritten, final.errors,
      final.spreadsheetResults⟩

/-- A target whose writer and timestamp update both work. -/
def okTarget (t : TargetSpec) : Prop :=
  t.behavior = .allOk ∧ t.updateSyncedError = none

/-- The per-target result of a fully successful sync with nonempty data. -/
def syncOkResult (t : TargetSpec) : SpreadsheetSyncResult :=
  ⟨t.spreadsheetId, t.sheetName, true, t.rowsWritten, none, true, true, true⟩

/-- A writer behaviour that fails on some step. -/
def failingBehavior : WriterBehavior → Bool
  | .allOk => false
  | .clearFails _ => true
  | .headerFails _ => true
  | .appendFails _ => true

/-- Folding the sync loop over fully healthy targets (nonempty data): every
target counts as a successful sync, its rows are added, no error and no
failure is recorded, and its result is appended in order. -/
theorem syncLoop_allOk (ts : List TargetSpec) :
    (∀ t ∈ ts, okTarget t) → ∀ st : SyncLoopState,
      ts.foldl (syncLoopStep true) st =
        { successfulSyncs := st.successfulSyncs + ts.length,
          failedSyncs := st.failedSyncs,
          totalRowsWritten := st.totalRowsWritten + (ts.map (·.rowsWritten)).sum,
          errors := st.errors,
          spreadsheetResults := st.spreadsheetResults ++ ts.map syncOkResult } := by
  induction ts with
  | nil => intro _ st; simp
  | cons t rest ih =>
    intro h st
    obtain ⟨hb, hu⟩ := h t (List.mem_cons_self t rest)
    have hstep : syncLoopStep true st t =
        { st with
          spreadsheetResults := st.spreadsheetResults ++ [syncOkResult t],
          successfulSyncs := st.successfulSyncs + 1,
          totalRowsWritten := st.totalRowsWritten + t.rowsWritten } := by
      simp [syncLoopStep, syncSingleSpreadsheet, hb, hu, syncOkResult]
    rw [List.foldl_cons, hstep,
      ih (fun x hx => h x (List.mem_cons_of_mem t hx))]
    simp only [List.map_cons, List.sum_cons, List.length_cons,
      SyncLoopState.mk.injEq, List.append_assoc, List.singleton_append]
    exact ⟨by omega, trivial, by omega, trivial, trivial⟩

/-- A target whose writer fails on some step yields a failed per-target
result with its error recorded, and the loop counts one failed sync, pushes
one error naming the target, and keeps going. -/
theorem syncLoopStep_failing (st : SyncLoopState) (bad : TargetSpec)
    (hbad : failingBehavior bad.behavior = true) :
    ∃ m, (syncSingleSpreadsheet true bad).success = false
      ∧ (syncSingleSpreadsheet true bad).error = some m
      ∧ syncLoopStep true st bad =
        { st with
          spreadsheetResults := st.spreadsheetResults ++ [syncSingleSpreadsheet true bad],
          failedSyncs := st.failedSyncs + 1,
          errors := st.errors ++ ["Ошибка синхронизации таблицы "
            ++ bad.spreadsheetId ++ ":" ++ bad.sheetName ++ " - " ++ m] } := by
  cases hb : bad.behavior with
  | allOk => rw [hb] at hbad; cases hbad
  | clearFails m =>
    exact ⟨"Ошибка очистки листа: " ++ m, by simp [syncSingleSpreadsheet, hb],
      by simp [syncSingleSpreadsheet, hb], by simp [syncLoopStep, syncSingleSpreadsheet, hb]⟩
  | headerFails m =>
    exact ⟨"Ошибка записи заголовков: " ++ m, by simp [syncSingleSpreadsheet, hb],
      by simp [syncSingleSpreadsheet, hb], by simp [syncLoopStep, syncSingleSpreadsheet, hb]⟩
  | appendFails m =>
    exact ⟨"Ошибка записи данных: " ++ m, by simp [syncSingleSpreadsheet, hb],
      by simp [syncSingleSpreadsheet, hb], by simp [syncLoopStep, syncSingleSpreadsheet, hb]⟩

/-- C2: with nonempty data and `M = pre.length + 1 + post.length` active
targets of which exactly the one in the middle has a writer failing on every
attempt, `syncAllSpreadsheets` completes with `successfulSyncs = M - 1`,
`failedSyncs = 1`, overall `success = false` (true only with zero failures),
the failing target's error recorded both in `errors` (naming the target) and
in its per-target result, and every other target's per-target result showing
a fully performed clear-then-header-then-append sequence. -/
theorem syncAllSpreadsheets_isolation
    (pre post : List TargetSpec) (bad : TargetSpec) (tariffCount : ℕ)
    (hpre : ∀ t ∈ pre, okTarget t) (hpost : ∀ t ∈ post, okTarget t)
    (hbad : failingBehavior bad.behavior = true)
    (hdata : 0 < tariffCount) :
    (syncAllSpreadsheets (pre ++ bad :: post) tariffCount).success = false
    ∧ (syncAllSpreadsheets (pre ++ bad :: post) tariffCount).totalSpreadsheets
        = pre.length + post.length + 1
    ∧ (syncAllSpreadsheets (pre ++ bad :: post) tariffCount).successfulSyncs
        = pre.length + post.length
    ∧ (syncAllSpreadsheets (pre ++ bad :: post) tariffCount).failedSyncs = 1
    ∧ (∃ m, (syncAllSpreadsheets (pre ++ bad :: post) tariffCount).errors
          = ["Ошибка синхронизации таблицы " ++ bad.spreadsheetId ++ ":"
              ++ bad.sheetName ++ " - " ++ m]
        ∧ (syncSingleSpreadsheet true bad).error = some m)
    ∧ (syncAllSpreadsheets (pre ++ bad :: post) tariffCount).spreadsheetResults
        = pre.map syncOkResult ++ syncSingleSpreadsheet true bad :: post.map syncOkResult
    ∧ (syncSingleSpreadsheet true bad).success = false
    ∧ (∀ t ∈ pre ++ post, (syncOkResult t).success = true
        ∧ (syncOkResult t).performedClear = true
        ∧ (syncOkResult t).performedHeaderWrite = true
        ∧ (syncOkResult t).performedAppend = true) := by
  obtain ⟨m, hfail, herrm, hstep⟩ :=
    syncLoopStep_failing (pre.foldl (syncLoopStep true) ⟨0, 0, 0, [], []⟩) bad hbad
  have hne : ¬ (pre ++ bad :: post).length = 0 := by simp
  have htc : ¬ tariffCount = 0 := by omega
  have hdec : decide (0 < tariffCount) = true := by simpa using hdata
  have hall : syncAllSpreadsheets (pre ++ bad :: post) tariffCount =
      ⟨decide (((pre ++ bad :: post).foldl (syncLoopStep true) ⟨0, 0, 0, [], []⟩).failedSyncs = 0),
        (pre ++ bad :: post).length,
        ((pre ++ bad :: post).foldl (syncLoopStep true) ⟨0, 0, 0, [], []⟩).successfulSyncs,
        ((pre ++ bad :: post).foldl (syncLoopStep true) ⟨0, 0, 0, [], []⟩).failedSyncs,
        ((pre ++ bad :: post).foldl (syncLoopStep true) ⟨0, 0, 0, [], []⟩).totalRowsWritten,
        ((pre ++ bad :: post).foldl (syncLoopStep true) ⟨0, 0, 0, [], []⟩).errors,
        ((pre ++ bad :: post).foldl (syncLoopStep true) ⟨0, 0, 0, [], []⟩).spreadsheetResults⟩ := by
    rw [syncAllSpreadsheets, if_neg hne, if_neg htc, hdec]
  have hfold : (pre ++ bad :: post).foldl (syncLoopStep true) ⟨0, 0, 0, [], []⟩
      = post.foldl (syncLoopStep true)
          (syncLoopStep true (pre.foldl (syncLoopStep true) ⟨0, 0, 0, [], []⟩) bad) := by
    rw [List.foldl_append, List.foldl_cons]
  have hpre' := syncLoop_allOk pre hpre (⟨0, 0, 0, [], []⟩ : SyncLoopState)
  rw [hpre'] at hstep
  simp only [] at hstep
  have hpost' := syncLoop_allOk post hpost
  rw [hfold, hpre', hstep, hpost'] at hall
  simp only [] at hall
  rw [hall]
  refine ⟨?_, by simp; omega, by simp, by simp, ⟨m, by simp, herrm⟩, by simp, hfail, ?_⟩
  · simp
  · intro t _
    exact ⟨rfl, rfl, rfl, rfl⟩

/-- Witness for `syncAllSpreadsheets_isolation`: three active targets with
two tariffs to publish, the middle target's `clear` failing on every
attempt. -/
theorem syncAllSpreadsheets_isolation_witness :
    (syncAllSpreadsheets
        [⟨"sheet-A", "stocks_coefs", .allOk, 2, none⟩,
         ⟨"sheet-B", "stocks_coefs", .clearFails "timeout", 0, none⟩,
         ⟨"sheet-C", "stocks_coefs", .allOk, 2, none⟩] 2).successfulSyncs = 2
    ∧ (syncAllSpreadsheets
        [⟨"sheet-A", "stocks_coefs", .allOk, 2, none⟩,
         ⟨"sheet-B", "stocks_coefs", .clearFails "timeout", 0, none⟩,
         ⟨"sheet-C", "stocks_coefs", .allOk, 2, none⟩] 2).failedSyncs = 1
    ∧ (syncAllSpreadsheets
        [⟨"sheet-A", "stocks_coefs", .allOk, 2, none⟩,
         ⟨"sheet-B", "stocks_coefs", .clearFails "timeout", 0, none⟩,
         ⟨"sheet-C", "stocks_coefs", .allOk, 2, none⟩] 2).success = false := by
  have h := syncAllSpreadsheets_isolation
    [⟨"sheet-A", "stocks_coefs", .allOk, 2, none⟩]
    [⟨"sheet-C", "stocks_coefs", .allOk, 2, none⟩]
    ⟨"sheet-B", "stocks_coefs", .clearFails "timeout", 0, none⟩ 2
    (by intro t ht; rw [List.mem_singleton] at ht; rw [ht]; exact ⟨rfl, rfl⟩)
    (by intro t ht; rw [List.mem_singleton] at ht; rw [ht]; exact ⟨rfl, rfl⟩)
    rfl (by norm_num)
  exact ⟨h.2.2.1, h.2.2.2.1, h.1⟩

/-- A `box_tariffs` row as the formatter reads it (src/services/
tariff-service.ts `Tariff`), with dates carried as their already formatted
`YYYY-MM-DD` strings (`formatDate` is the identity on them; no claim
involves reformatting another date shape). -/
structure Tariff where
  warehouse_id : ℕ
  tariff_date : String
  box_delivery_base : Option ℚ
  box_delivery_liter : Option ℚ
  box_delivery_coef_expr : Option ℚ
  box_delivery_marketplace_base : Option ℚ
  box_delivery_marketplace_liter : Option ℚ
  box_delivery_marketplace_coef_expr : Option ℚ
  box_storage_base : Option ℚ
  box_storage_liter : Option ℚ
  box_storage_coef_expr : Option ℚ
  dt_next_box : Option String
  dt_till_max : Option String
  sorting_coefficient : Option ℚ
  updated_at : Option String
deriving DecidableEq, Repr

/-- A `warehouses` row as the formatter reads it. -/
structure Warehouse where
  id : ℕ
  warehouse_name : String
  geo_name : Option String
deriving DecidableEq, Repr

/-- One Google Sheets cell value: rows mix strings and numbers. -/
inductive SheetCell where
  | str (s : String)
  | num (q : ℚ)
deriving DecidableEq, Repr

/-- The row-level number formatting `Math.round(num * 100) / 100`, with
`null` rendered as the empty string. -/
def fmtNumCell : Option ℚ → SheetCell
  | none => .str ""
  | some q => .num (round2 q)

/-- The `Map` of warehouses keyed by id that both formatter versions build
with `forEach`/`set`; a later duplicate id overwrites an earlier one, as
`Map.set` does. -/
def warehouseNameById (warehouses : List Warehouse) (wid : ℕ) : Option String :=
  warehouses.foldl (fun acc w => if w.id = wid then some w.warehouse_name else acc) none

/-- Same lookup keeping the geographic label, for the second formatter
version. -/
def warehouseEntryById (warehouses : List Warehouse) (wid : ℕ) :
    Option (String × Option String) :=
  warehouses.foldl
    (fun acc w => if w.id = wid then some (w.warehouse_name, w.geo_name) else acc) none

/-- Output shape of `TariffTransformer.toSheetsFormat` (the two-argument
version present in the sources). -/
structure FormattedTariff where
  warehouse_name : String
  tariff_date : String
  delivery_fbo : Option ℚ
  delivery_fbs : Option ℚ
  storage : Option ℚ
  sorting_coefficient : Option ℚ
  dt_next_box : Option String
  dt_till_max : Option String
deriving DecidableEq, Repr

/-- Translation of `TariffTransformer.toSheetsFormat`. -/
def toSheetsFormat (tariff : Tariff) (warehouseName : String) : FormattedTariff :=
  { warehouse_name := warehouseName,
    tariff_date := tariff.tariff_date,
    delivery_fbo := tariff.box_delivery_base,
    delivery_fbs := tariff.box_delivery_marketplace_base,
    storage := tariff.box_storage_base,
    sorting_coefficient := tariff.sorting_coefficient,
    dt_next_box := tariff.dt_next_box,
    dt_till_max := tariff.dt_till_max }

/-- The order induced by both versions' sort comparator (`(a, b) => a - b`
with `null` pushed last): `coefLE a b` says `a` may precede `b`. -/
def coefLE : Option ℚ → Option ℚ → Bool
  | _, none => true
  | none, some _ => false
  | some a, some b => decide (a ≤ b)

/-- Insert into a list sorted by `coefLE` on the given key. -/
def insertByCoef (key : α → Option ℚ) (x : α) : List α → List α
  | [] => [x]
  | y :: ys =>
    if coefLE (key x) (key y) then x :: y :: ys
    else y :: insertByCoef key x ys

/-- Insertion sort by `coefLE` on the given key: the model of
`Array.prototype.sort` with either version's comparator — the claims here
depend only on the resulting order being sorted with nulls last and a
permutation of the input, which any implementation of `sort` with that
comparator produces. -/
def sortByCoef (key : α → Option ℚ) : List α → List α
  | [] => []
  | x :: xs => insertByCoef key x (sortByCoef key xs)

/-- The header row of the first formatter version. -/
def getHeaders : List String :=
  ["Склад", "Дата тарифа", "Доставка FBO (₽)", "Доставка FBS (₽)",
   "Хранение (₽)", "Коэффициент", "След. бокс", "Макс. дата"]

/-- Translation of the first version's `toTableRow`. -/
def toTableRow (f : FormattedTariff) : List SheetCell :=
  [.str f.warehouse_name, .str f.tariff_date, fmtNumCell f.delivery_fbo,
   fmtNumCell f.delivery_fbs, fmtNumCell f.storage,
   fmtNumCell f.sorting_coefficient,
   .str (f.dt_next_box.getD ""), .str (f.dt_till_max.getD "")]

/-- Translation of the first `TariffFormatter.formatTariffsForSheet`
(src/utils/tariff-formatter.ts, first definition): build the warehouse map,
format every tariff, sort by `sorting_coefficient` (nulls last), convert to
rows and prepend the headers. -/
def formatTariffsForSheet (tariffs : List Tariff) (warehouses : List Warehouse) :
    List (List SheetCell) :=
  let formatted := tariffs.map (fun t =>
    toSheetsFormat t ((warehouseNameById warehouses t.warehouse_id).getD "Неизвестный склад"))
  let sorted := sortByCoef (fun f => f.sorting_coefficient) formatted
  (getHeaders.map SheetCell.str) :: sorted.map toTableRow

/-- Output shape of the second formatter version's per-tariff objects. -/
structure FormattedTariffV2 where
  warehouseName : String
  updated_at : Option String
  boxDeliveryBase : Option ℚ
  boxDeliveryCoefExpr : Option ℚ
  boxDeliveryLiter : Option ℚ
  boxDeliveryMarketplaceBase : Option ℚ
  boxDeliveryMarketplaceCoefExpr : Option ℚ
  boxDeliveryMarketplaceLiter : Option ℚ
  boxStorageBase : Option ℚ
  boxStorageCoefExpr : Option ℚ
  boxStorageLiter : Option ℚ
  geoName : Option String
deriving DecidableEq, Repr

/-- Modelled from the spec: the three-argument
`TariffTransformer.toSheetsFormat` that the second
`TariffFormatter.formatTariffsForSheet` calls is absent from the sources
(only this caller and the column headers show its shape); its field mapping
is the evident renaming of the tariff's columns plus the warehouse name and
geographic label, per §4.4's "format the join of tariffs+locations". -/
def toSheetsFormatV2 (tariff : Tariff) (warehouseName : String)
    (geoName : Option String) : FormattedTariffV2 :=
  { warehouseName := warehouseName,
    updated_at := tariff.updated_at,
    boxDeliveryBase := tariff.box_delivery_base,
    boxDeliveryCoefExpr := tariff.box_delivery_coef_expr,
    boxDeliveryLiter := tariff.box_delivery_liter,
    boxDeliveryMarketplaceBase := tariff.box_delivery_marketplace_base,
    boxDeliveryMarketplaceCoefExpr := tariff.box_delivery_marketplace_coef_expr,
    boxDeliveryMarketplaceLiter := tariff.box_delivery_marketplace_liter,
    boxStorageBase := tariff.box_storage_base,
    boxStorageCoefExpr := tariff.box_storage_coef_expr,
    boxStorageLiter := tariff.box_storage_liter,
    geoName := geoName }

/-- The header row of the second formatter version. -/
def getHeadersV2 : List String :=
  ["warehouseName", "updated_at", "boxDeliveryBase", "boxDeliveryCoefExpr",
   "boxDeliveryLiter", "boxDeliveryMarketplaceBase",
   "boxDeliveryMarketplaceCoefExpr", "boxDeliveryMarketplaceLiter",
   "boxStorageBase", "boxStorageCoefExpr", "boxStorageLiter", "geoName"]

/-- Translation of the second version's `toTableRow`. -/
def toTableRowV2 (f : FormattedTariffV2) : List SheetCell :=
  [.str f.warehouseName, .str (f.updated_at.getD ""),
   fmtNumCell f.boxDeliveryBase, fmtNumCell f.boxDeliveryCoefExpr,
   fmtNumCell f.boxDeliveryLiter, fmtNumCell f.boxDeliveryMarketplaceBase,
   fmtNumCell f.boxDeliveryMarketplaceCoefExpr,
   fmtNumCell f.boxDeliveryMarketplaceLiter, fmtNumCell f.boxStorageBase,
   fmtNumCell f.boxStorageCoefExpr, fmtNumCell f.boxStorageLiter,
   .str (f.geoName.getD "")]

/-- Translation of the second `TariffFormatter.formatTariffsForSheet`
(src/utils/tariff-formatter.ts, second definition): as the first, but the
formatted objects no longer carry `sorting_coefficient`, and the comparator
sorts by `boxStorageBase` instead ("используем boxStorageBase для
сортировки как альтернативу"). -/
def formatTariffsForSheetV2 (tariffs : List Tariff) (warehouses : List Warehouse) :
    List (List SheetCell) :=
  let formatted := tariffs.map (fun t =>
    let w := (warehouseEntryById warehouses t.warehouse_id).getD ("Неизвестный склад", none)
    toSheetsFormatV2 t w.1 w.2)
  let sorted := sortByCoef (fun f => f.boxStorageBase) formatted
  (getHeadersV2.map SheetCell.str) :: sorted.map toTableRowV2

/-- The row order the claim asserts, written from the spec's words for
comparison with the code's order: the header row followed by the data rows
in ascending order of the derived sorting coefficient stored at write time,
rows with a null coefficient last. -/
def specSortedRowsV2 (tariffs : List Tariff) (warehouses : List Warehouse) :
    List (List SheetCell) :=
  (getHeadersV2.map SheetCell.str) ::
    (sortByCoef (fun t => t.sorting_coefficient) tariffs).map (fun t =>
      let w := (warehouseEntryById warehouses t.warehouse_id).getD ("Неизвестный склад", none)
      toTableRowV2 (toSheetsFormatV2 t w.1 w.2))

/-- The comparator order is total. -/
theorem coefLE_total (a b : Option ℚ) : coefLE a b = true ∨ coefLE b a = true := by
  cases a <;> cases b <;> simp [coefLE]
  exact le_total _ _

/-- The comparator order is transitive. -/
theorem coefLE_trans {a b c : Option ℚ}
    (h1 : coefLE a b = true) (h2 : coefLE b c = true) : coefLE a c = true := by
  cases a <;> cases b <;> cases c <;> simp_all [coefLE]
  exact le_trans h1 h2

/-- Sortedness by the comparator on a key. -/
def keySorted (key : α → Option ℚ) (l : List α) : Prop :=
  l.Pairwise (fun a b => coefLE (key a) (key b) = true)

/-- Inserting is a permutation of consing. -/
theorem insertByCoef_perm (key : α → Option ℚ) (x : α) (l : List α) :
    (insertByCoef key x l).Perm (x :: l) := by
  induction l with
  | nil => simp [insertByCoef]
  | cons y ys ih =>
    simp only [insertByCoef]
    split
    · exact List.Perm.refl _
    · exact (ih.cons y).trans (List.Perm.swap x y ys)

/-- Sorting is a permutation. -/
theorem sortByCoef_perm (key : α → Option ℚ) (l : List α) :
    (sortByCoef key l).Perm l := by
  induction l with
  | nil => exact List.Perm.refl _
  | cons x xs ih =>
    exact (insertByCoef_perm key x (sortByCoef key xs)).trans (ih.cons x)

/-- Inserting into a sorted list keeps it sorted. -/
theorem insertByCoef_sorted (key : α → Option ℚ) (x : α) (l : List α)
    (h : keySorted key l) : keySorted key (insertByCoef key x l) := by
  induction l with
  | nil => simp [insertByCoef, keySorted]
  | cons y ys ih =>
    rw [keySorted, List.pairwise_cons] at h
    obtain ⟨hy, hys⟩ := h
    simp only [insertByCoef]
    split
    case isTrue hxy =>
      rw [keySorted, List.pairwise_cons]
      refine ⟨?_, List.Pairwise.cons hy hys⟩
      intro z hz
      rcases List.mem_cons.mp hz with hz | hz
      · rw [hz]; exact hxy
      · exact coefLE_trans hxy (hy z hz)
    case isFalse hxy =>
      rw [keySorted, List.pairwise_cons]
      refine ⟨?_, ih hys⟩
      intro z hz
      rw [(insertByCoef_perm key x ys).mem_iff] at hz
      rcases List.mem_cons.mp hz with hz | hz
      · rcases coefLE_total (key x) (key y) with h | h
        · exact absurd h hxy
        · rw [hz]; exact h
      · exact hy z hz

/-- Insertion sort sorts. -/
theorem sortByCoef_sorted (key : α → Option ℚ) (l : List α) :
    keySorted key (sortByCoef key l) := by
  induction l with
  | nil => exact List.Pairwise.nil
  | cons x xs ih => exact insertByCoef_sorted key x (sortByCoef key xs) ih

/-- The second version's per-tariff formatting step (warehouse lookup plus
field mapping), named for use in statements. -/
def formatOneV2 (warehouses : List Warehouse) (t : Tariff) : FormattedTariffV2 :=
  let w := (warehouseEntryById warehouses t.warehouse_id).getD ("Неизвестный склад", none)
  toSheetsFormatV2 t w.1 w.2

/-- C8 as amended: both versions of `formatTariffsForSheet` return the
header row first followed by exactly one row per tariff; the first version's
data rows are a permutation of the formatted tariffs sorted ascending by the
stored `sorting_coefficient` with nulls last, while the second version's
data rows are sorted by `box_storage_base` (nulls last) instead of by the
stored coefficient. -/
theorem formatTariffsForSheet_order (tariffs : List Tariff) (warehouses : List Warehouse) :
    (∃ l, formatTariffsForSheet tariffs warehouses
        = (getHeaders.map SheetCell.str) :: l.map toTableRow
      ∧ l.Perm (tariffs.map (fun t =>
          toSheetsFormat t
            ((warehouseNameById warehouses t.warehouse_id).getD "Неизвестный склад")))
      ∧ keySorted (fun f => f.sorting_coefficient) l
      ∧ (formatTariffsForSheet tariffs warehouses).length = tariffs.length + 1)
    ∧ (∃ l, formatTariffsForSheetV2 tariffs warehouses
        = (getHeadersV2.map SheetCell.str) :: l.map toTableRowV2
      ∧ l.Perm (tariffs.map (formatOneV2 warehouses))
      ∧ keySorted (fun f => f.boxStorageBase) l
      ∧ (formatTariffsForSheetV2 tariffs warehouses).length = tariffs.length + 1) := by
  constructor
  · refine ⟨sortByCoef (fun f => f.sorting_coefficient)
      (tariffs.map (fun t =>
        toSheetsFormat t
          ((warehouseNameById warehouses t.warehouse_id).getD "Неизвестный склад"))),
      rfl, sortByCoef_perm _ _, sortByCoef_sorted _ _, ?_⟩
    have hl := (sortByCoef_perm (fun f : FormattedTariff => f.sorting_coefficient)
      (tariffs.map (fun t =>
        toSheetsFormat t
          ((warehouseNameById warehouses t.warehouse_id).getD "Неизвестный склад")))).length_eq
    simp [formatTariffsForSheet, hl]
  · refine ⟨sortByCoef (fun f => f.boxStorageBase)
      (tariffs.map (formatOneV2 warehouses)),
      rfl, sortByCoef_perm _ _, sortByCoef_sorted _ _, ?_⟩
    have hl := (sortByCoef_perm (fun f : FormattedTariffV2 => f.boxStorageBase)
      (tariffs.map (formatOneV2 warehouses))).length_eq
    rw [List.length_map] at hl
    simp only [formatTariffsForSheetV2, List.length_cons, List.length_map]
    exact congrArg Nat.succ hl

/-- A tariff row whose write-time coefficient is dominated by its delivery
base: storage base 10, delivery base 200, coefficient 1.23. -/
def cxTariffA : Tariff :=
  { warehouse_id := 1, tariff_date := "2025-11-12",
    box_delivery_base := some 200, box_delivery_liter := none,
    box_delivery_coef_expr := none,
    box_delivery_marketplace_base := none, box_delivery_marketplace_liter := none,
    box_delivery_marketplace_coef_expr := none,
    box_storage_base := some 10, box_storage_liter := none,
    box_storage_coef_expr := none,
    dt_next_box := none, dt_till_max := none,
    sorting_coefficient := some (mkRat 123 100), updated_at := none }

/-- A tariff row with a larger storage base but a much smaller write-time
coefficient: storage base 20, no delivery bases, coefficient 0.06. -/
def cxTariffB : Tariff :=
  { warehouse_id := 2, tariff_date := "2025-11-12",
    box_delivery_base := none, box_delivery_liter := none,
    box_delivery_coef_expr := none,
    box_delivery_marketplace_base := none, box_delivery_marketplace_liter := none,
    box_delivery_marketplace_coef_expr := none,
    box_storage_base := some 20, box_storage_liter := none,
    box_storage_coef_expr := none,
    dt_next_box := none, dt_till_max := none,
    sorting_coefficient := some (mkRat 3 50), updated_at := none }

/-- The two warehouses the counterexample tariffs reference. -/
def cxWarehouses : List Warehouse :=
  [⟨1, "Коледино", none⟩, ⟨2, "Тула", none⟩]

/-- C8 counterexample: on two tariffs whose order by stored coefficient is
the reverse of their order by storage base, the second
`formatTariffsForSheet` emits the rows in storage-base order — not in the
ascending-coefficient order the claim asserts (the stored coefficients are
exactly what `calculateSortingCoefficient` computes from these bases, so
the rows are reachable write-time states). -/
theorem formatTariffsForSheetV2_counterexample :
    formatTariffsForSheetV2 [cxTariffA, cxTariffB] cxWarehouses
        ≠ specSortedRowsV2 [cxTariffA, cxTariffB] cxWarehouses
    ∧ coefLE cxTariffB.sorting_coefficient cxTariffA.sorting_coefficient = true
    ∧ coefLE cxTariffA.sorting_coefficient cxTariffB.sorting_coefficient = false
    ∧ cxTariffA.sorting_coefficient
        = calculateSortingCoefficient cxTariffA.box_delivery_base
            cxTariffA.box_delivery_marketplace_base cxTariffA.box_storage_base
    ∧ cxTariffB.sorting_coefficient
        = calculateSortingCoefficient cxTariffB.box_delivery_base
            cxTariffB.box_delivery_marketplace_base cxTariffB.box_storage_base := by
  have e1 : formatTariffsForSheetV2 [cxTariffA, cxTariffB] cxWarehouses
      = (getHeadersV2.map SheetCell.str)
        :: [toTableRowV2 (toSheetsFormatV2 cxTariffA "Коледино" none),
            toTableRowV2 (toSheetsFormatV2 cxTariffB "Тула" none)] := rfl
  have e2 : specSortedRowsV2 [cxTariffA, cxTariffB] cxWarehouses
      = (getHeadersV2.map SheetCell.str)
        :: [toTableRowV2 (toSheetsFormatV2 cxTariffB "Тула" none),
            toTableRowV2 (toSheetsFormatV2 cxTariffA "Коледино" none)] := rfl
  refine ⟨?_, by decide, by decide, ?_, ?_⟩
  · rw [e1, e2]
    intro h
    simp only [List.cons.injEq] at h
    obtain ⟨-, hrow, -⟩ := h
    have hhead := congrArg List.head? hrow
    simp only [toTableRowV2, toSheetsFormatV2, List.head?_cons, Option.some.injEq] at hhead
    exact absurd hhead (by decide)
  · show some (mkRat 123 100)
        = calculateSortingCoefficient (some 200) none (some 10)
    rw [calculateSortingCoefficient]
    norm_num [round2, Rat.mkRat_eq_div]
  · show some (mkRat 3 50)
        = calculateSortingCoefficient none none (some 20)
    rw [calculateSortingCoefficient]
    norm_num [round2, Rat.mkRat_eq_div]
